import Mathlib

/-!
Verification of the react-mathlive adapter utilities (`src/utils.tsx`).

The module glues the MathLive web component to React.  Its logic is:
  * `filterConfig` — splits a property bag into mathfield configuration
    options and passthrough DOM props, leaving handler props to the
    event-registration hook;
  * `useUpdateOptions` — pushes a configuration to the widget only when it
    differs (deep structural equality) from the previously applied one;
  * `useEventRegistration` — attaches native listeners for function-valued
    handler props and removes them again on cleanup;
  * `useEventDispatchRef` — legacy synthetic input dispatch through native
    value setters;
  * `useAddChild` — appends a detached node to the document body and
    removes it on teardown.

JavaScript values that flow through the adapter are modelled by `Value`:
functions, React elements, strings and other primitives are atoms
distinguished by an identity tag, and arrays are one level of list (the
adapter only ever inspects arrays element-wise with `React.isValidElement`,
so one level suffices to represent every behaviour the code exhibits).
`renderToString` from react-dom is an external capability and is a
parameter `render` wherever it is needed.
-/

set_option autoImplicit false

namespace ReactMathlive

/-- Non-array JavaScript values seen by the adapter: callback functions and
React elements are compared by reference identity, modelled by a numeric
tag; strings by their contents; any other primitive by a numeric tag. -/
inductive Atom where
  | func (id : Nat)
  | elem (id : Nat)
  | str (s : String)
  | prim (id : Nat)
deriving DecidableEq, Repr

/-- A JavaScript value supplied in the property bag: an atom or an array of
atoms. -/
inductive Value where
  | atom (a : Atom)
  | arr (xs : List Atom)
deriving DecidableEq, Repr

/-- `React.isValidElement` -/
def isValidElement : Value → Bool
  | .atom (.elem _) => true
  | _ => false

/-- `React.isValidElement` on an array element. -/
def isValidElementAtom : Atom → Bool
  | .elem _ => true
  | _ => false

/-- `typeof v === 'function'` -/
def isFunc : Value → Bool
  | .atom (.func _) => true
  | _ => false

/-- The condition of `filterConfig` deciding that a value is renderable
markup: `React.isValidElement(value) || (value instanceof Array &&
value.every(React.isValidElement))`. -/
def isRenderableValue : Value → Bool
  | .atom a => isValidElementAtom a
  | .arr xs => xs.all isValidElementAtom

/-- The `OPTIONS` array of `utils.tsx`: the recognized mathfield
configuration keys. -/
def OPTIONS : List String :=
  ["createHTML", "customVirtualKeyboardLayers", "customVirtualKeyboards",
   "defaultMode", "fontsDirectory", "horizontalSpacingScale",
   "ignoreSpacebarInMathMode", "inlineShortcutTimeout", "inlineShortcuts",
   "keybindings", "keypressSound", "keypressVibration", "letterShapeStyle",
   "locale", "macros", "namespace", "onBlur", "onCommit",
   "onContentDidChange", "onContentWillChange", "onError", "onFocus",
   "onKeystroke", "onModeChange", "onMoveOutOf", "onReadAloudStatus",
   "onSelectionDidChange", "onSelectionWillChange", "onTabOutOf",
   "onUndoStateDidChange", "onUndoStateWillChange",
   "onVirtualKeyboardToggle", "overrideDefaultInlineShortcuts",
   "plonkSound", "readAloudHook", "readOnly",
   "removeExtraneousParentheses", "scriptDepth", "smartFence", "smartMode",
   "smartSuperscript", "speakHook", "speechEngine", "speechEngineRate",
   "speechEngineVoice", "strings", "substituteTextArea",
   "textToSpeechMarkup", "textToSpeechRules", "textToSpeechRulesOptions",
   "virtualKeyboardLayout", "virtualKeyboardMode", "virtualKeyboardTheme",
   "virtualKeyboardToggleGlyph", "virtualKeyboards"]

/-- The `FUNCTION_MAPPING` table: framework-facing handler prop name to
native event name. -/
def FUNCTION_MAPPING : List (String × String) :=
  [("onChange", "input"), ("onInput", "input"),
   ("onMathFieldFocus", "focus"), ("onMathFieldBlur", "blur"),
   ("onCommit", "change"), ("onError", "math-error"),
   ("onKeystroke", "keystroke"), ("onModeChange", "mode-change"),
   ("onMoveOutOf", "focus-out"), ("onReadAloudStatus", "read-aloud-status"),
   ("onSelectionWillChange", "selection-will-change"),
   ("onUndoStateDidChange", "undo-state-did-change"),
   ("onUndoStateWillChange", "undo-state-will-change"),
   ("onVirtualKeyboardToggle", "virtual-keyboard-toggle")]

/-- `FUNCTION_PROPS = Object.keys(FUNCTION_MAPPING)` -/
def FUNCTION_PROPS : List String := FUNCTION_MAPPING.map Prod.fst

/-- The `MAPPING` rename table applied by `MAPPING[_key] || _key`:
`className ↦ class`, `htmlFor ↦ for`, every other key unchanged. -/
def normalizeKey (k : String) : String :=
  if k = "className" then "class" else if k = "htmlFor" then "for" else k

/-- A JavaScript object is modelled as an association list of string keys
to values, in insertion order, with distinct keys in any object the DOM
can produce (the embedding never relies on that and states it where it
matters). -/
abbrev Obj := List (String × Value)

/-- JavaScript property assignment `o[k] = v`: overwrite an existing
binding in place, otherwise append the new binding. -/
def setKey : Obj → String → Value → Obj
  | [], k, v => [(k, v)]
  | (k', v') :: rest, k, v =>
      if k' = k then (k, v) :: rest else (k', v') :: setKey rest k v

/-- JavaScript property read `o[k]`: the binding of the first matching
key, if any. -/
def lookupKey : Obj → String → Option Value
  | [], _ => none
  | (k', v) :: rest, k => if k' = k then some v else lookupKey rest k

/-- `Object.keys` -/
def keysOf (o : Obj) : List String := o.map Prod.fst

/-- The body of `filterConfig`'s `for`-loop for one property `p`, acting on
the accumulated pair `(config, passProps)`:

  * renamed key in `FUNCTION_PROPS` → skip (handled by listeners);
  * else renamed key in `OPTIONS` → store under the renamed key, first
    replacing a renderable value by its `renderToString` form;
  * else → store in `passProps` under the renamed key. -/
def stepFC (render : Value → String) (acc : Obj × Obj) (p : String × Value) :
    Obj × Obj :=
  let key := normalizeKey p.1
  if key ∈ FUNCTION_PROPS then acc
  else if key ∈ OPTIONS then
    (setKey acc.1 key
      (if isRenderableValue p.2 then Value.atom (Atom.str (render p.2)) else p.2),
     acc.2)
  else (acc.1, setKey acc.2 key p.2)

/-- The `for (const _key in props)` loop of `filterConfig`, processing the
bag in key order. -/
def filterConfigAux (render : Value → String) :
    List (String × Value) → Obj × Obj → Obj × Obj
  | [], acc => acc
  | p :: rest, acc => filterConfigAux render rest (stepFC render acc p)

/-- `filterConfig(props)`: the pair `(config, passProps)`. -/
def filterConfig (render : Value → String) (props : Obj) : Obj × Obj :=
  filterConfigAux render props ([], [])

/-- A concrete stand-in for react-dom's `renderToString`, used only to
instantiate witnesses; theorems quantify over the render function. -/
def renderStub : Value → String := fun _ => ""

/-! ### Event Bridge (`useEventRegistration`)

One effect run computes, from the current props, the list of listeners to
attach: the keys whose value is a function and whose renamed key is in
`FUNCTION_PROPS`, each paired with a freshly created forwarding closure.
Closure identity is modelled by a `Nat` tag, allocated consecutively from
a base that is fresh for the run, mirroring that each run builds new
closures distinct from everything already on the node. -/

/-- The key filter of `useEventRegistration`:
`typeof props[key] === 'function' && FUNCTION_PROPS.indexOf(MAPPING[key] || key) > -1`. -/
def handlerSelection (props : Obj) : List String :=
  (props.filter fun p => isFunc p.2 && decide (normalizeKey p.1 ∈ FUNCTION_PROPS)).map Prod.fst

/-- `FUNCTION_MAPPING[MAPPING[key] || key]`: the native event name for a
selected handler prop. -/
def eventName (k : String) : String :=
  ((FUNCTION_MAPPING.lookup (normalizeKey k)).getD "")

/-- The `fns` list of one effect run: for each selected key, the native
event name and the identity of the fresh forwarding closure. -/
def listenerEntriesAux : List String → Nat → List (String × Nat)
  | [], _ => []
  | k :: rest, base => (eventName k, base) :: listenerEntriesAux rest (base + 1)

/-- All listeners attached by one run of `useEventRegistration`, with
closure identities starting at `base`. -/
def listenerEntries (props : Obj) (base : Nat) : List (String × Nat) :=
  listenerEntriesAux (handlerSelection props) base

/-- The DOM node's listener list: pairs of event name and listener
identity, in registration order. -/
abbrev Listeners := List (String × Nat)

/-- DOM `node.addEventListener(type, fn)`: appends the listener unless the
identical (type, listener) pair is already registered. -/
def domAddListener (L : Listeners) (p : String × Nat) : Listeners :=
  if p ∈ L then L else L ++ [p]

/-- DOM `node.removeEventListener(type, fn)`: removes the matching
(type, listener) registration, if present. -/
def domRemoveListener (L : Listeners) (p : String × Nat) : Listeners :=
  L.erase p

/-- The `fns.forEach(({key, fn}) => node.addEventListener(key, fn))` of the
effect body. -/
def attachAll (L : Listeners) (fns : List (String × Nat)) : Listeners :=
  fns.foldl domAddListener L

/-- The cleanup `fns.forEach(({key, fn}) => node.removeEventListener(key, fn))`. -/
def detachAll (L : Listeners) (fns : List (String × Nat)) : Listeners :=
  fns.foldl domRemoveListener L

/-- Dispatching a native event of type `e` on a node invokes exactly the
listeners registered for `e`, in registration order. -/
def dispatchList (L : Listeners) (e : String) : List Nat :=
  (L.filter fun p => p.1 = e).map Prod.snd

/-! ### Option Differ / Updater (`useUpdateOptions`)

The hook holds one piece of state, `configRef.current`, initialized by
`useRef(config)` to the configuration of the first render.  Each layout
effect run compares the stored configuration with the current one by
lodash `isEqual`; only when they differ does it call
`ref.current?.setOptions(config)` (a no-op when the ref is empty) and
overwrite the stored configuration. -/

/-- lodash `isEqual` on two plain objects: they agree, key by key, on the
bindings each of them mentions (order-insensitive deep structural
equality; values are compared structurally, functions by identity). -/
def isEqualConfig (a b : Obj) : Bool :=
  (a.all fun p => decide (lookupKey b p.1 = lookupKey a p.1)) &&
  (b.all fun p => decide (lookupKey a p.1 = lookupKey b p.1))

/-- One run of the `useUpdateOptions` layout effect: given whether the
widget ref is populated, the stored previous configuration and the current
one, return the new stored configuration and the list of `setOptions`
calls made (in order, each with its argument). -/
def runUpdateOptions (present : Bool) (prev config : Obj) :
    Obj × List Obj :=
  if isEqualConfig prev config then (prev, [])
  else (config, if present then [config] else [])

/-- A sequence of effect runs with a constant ref state, threading the
stored configuration and concatenating the `setOptions` call traces. -/
def runUpdateSeq (present : Bool) (prev : Obj) : List Obj → Obj × List Obj
  | [] => (prev, [])
  | c :: cs =>
      let r := runUpdateOptions present prev c
      let rest := runUpdateSeq present r.1 cs
      (rest.1, r.2 ++ rest.2)

/-! ### Synthetic-Input Dispatcher (`useEventDispatchRef`)

The element bound to the ref is modelled by the identities of the `value`
setters visible on it: the setter of its own `value` property descriptor
(when the descriptor and its `set` exist) and the setter of the prototype's
descriptor.  Setter identity is a `Nat`; `!==` is identity comparison.
Reading `.set` through the source's non-null assertions when the own
descriptor is missing is a thrown `TypeError`, modelled by `Except.error`. -/

structure InputElement where
  ownSetter : Option Nat
  protoSetter : Nat
deriving DecidableEq, Repr

structure SyntheticEvent where
  etype : String
  bubbles : Bool
  cancelable : Bool
  detailValue : String
deriving DecidableEq, Repr

/-- The observable outcome of a successful dispatch: which setter ran,
with which value, and the custom event that was dispatched. -/
structure DispatchResult where
  setterUsed : Nat
  setterArg : String
  event : SyntheticEvent
deriving DecidableEq, Repr

/-- The dispatch function returned by `useEventDispatchRef`:
if the ref is unbound, silently no-op; otherwise take
`valueSetter = getOwnPropertyDescriptor(handler, "value").set` and
`prototypeValueSetter` from the prototype, call the prototype setter when
`valueSetter` exists and differs from it and the own setter otherwise,
then dispatch a bubbling, cancelable `CustomEvent` of the given type
carrying the detail. -/
def dispatchSynthetic (el : Option InputElement) (etype : String)
    (value : String) : Except String (Option DispatchResult) :=
  match el with
  | none => .ok none
  | some h =>
      match h.ownSetter with
      | none => .error "TypeError"
      | some vs =>
          let used := if vs ≠ h.protoSetter then h.protoSetter else vs
          .ok (some
            { setterUsed := used
              setterArg := value
              event :=
                { etype := etype, bubbles := true, cancelable := true,
                  detailValue := value } })

/-- Modelled from the spec's wording of the dispatcher, for comparison
with the code: the setter selected is "the element's own-descriptor setter
when it is present and distinct from the prototype's setter, otherwise the
prototype-level setter". -/
def specSelectedSetter (h : InputElement) : Nat :=
  match h.ownSetter with
  | some vs => if vs ≠ h.protoSetter then vs else h.protoSetter
  | none => h.protoSetter

/-! ### Detached-Node Manager (`useAddChild`)

The document body's child list is a list of node identities.  DOM
`appendChild` moves the node to the end; DOM `removeChild` throws a
`NotFoundError` `DOMException` when the argument is not currently a child. -/

/-- `document.body.appendChild(container)` -/
def bodyAppendChild (body : List Nat) (c : Nat) : List Nat :=
  body.erase c ++ [c]

/-- `document.body.removeChild(container)`: errors when `c` is not a
child. -/
def bodyRemoveChild (body : List Nat) (c : Nat) : Except String (List Nat) :=
  if c ∈ body then .ok (body.erase c) else .error "NotFoundError"

/-- The cleanup returned by `useAddChild`'s layout effect:
`document.body.removeChild(container)`. -/
def useAddChildCleanup (body : List Nat) (container : Nat) :
    Except String (List Nat) :=
  bodyRemoveChild body container

/-- The key set of a property bag after applying the rename table: the
"original bag's keys (accounting for renames)". -/
def normKeys (props : Obj) : List String :=
  props.map fun p => normalizeKey p.1

/-! ### Association-list lemmas -/

theorem mem_normKeys (props : Obj) (a : String) :
    a ∈ normKeys props ↔ ∃ p ∈ props, normalizeKey p.1 = a := by
  simp [normKeys, List.mem_map]

theorem mem_keysOf_setKey (l : Obj) (k : String) (v : Value) (a : String) :
    a ∈ keysOf (setKey l k v) ↔ a = k ∨ a ∈ keysOf l := by
  induction l with
  | nil => simp [setKey, keysOf]
  | cons p rest ih =>
      obtain ⟨k', v'⟩ := p
      by_cases h : k' = k
      · subst h
        simp [setKey, keysOf]
      · simp only [setKey, if_neg h, keysOf, List.map_cons, List.mem_cons]
        rw [show keysOf (setKey rest k v) = (setKey rest k v).map Prod.fst from rfl] at ih
        rw [show keysOf rest = rest.map Prod.fst from rfl] at ih
        rw [ih]
        tauto

theorem lookupKey_setKey_self (l : Obj) (k : String) (v : Value) :
    lookupKey (setKey l k v) k = some v := by
  induction l with
  | nil => simp [setKey, lookupKey]
  | cons p rest ih =>
      obtain ⟨k', v'⟩ := p
      by_cases h : k' = k
      · simp [setKey, h, lookupKey]
      · simp [setKey, h, lookupKey, ih]

theorem lookupKey_setKey_ne (l : Obj) (k : String) (v : Value) (a : String)
    (h : k ≠ a) : lookupKey (setKey l k v) a = lookupKey l a := by
  induction l with
  | nil => simp [setKey, lookupKey, h]
  | cons p rest ih =>
      obtain ⟨k', v'⟩ := p
      by_cases h1 : k' = k
      · subst h1
        simp [setKey, lookupKey, h]
      · by_cases h2 : k' = a
        · simp [setKey, h1, lookupKey, h2, Ne.symm h]
        · simp [setKey, h1, lookupKey, h2, ih]

theorem lookupKey_isSome_of_mem (l : Obj) (p : String × Value) (h : p ∈ l) :
    ∃ w, lookupKey l p.1 = some w := by
  induction l with
  | nil => simp at h
  | cons q rest ih =>
      obtain ⟨k', v'⟩ := q
      by_cases hk : k' = p.1
      · exact ⟨v', by simp [lookupKey, hk]⟩
      · rcases List.mem_cons.mp h with h1 | h1
        · exact absurd (congrArg Prod.fst h1.symm) hk
        · simpa [lookupKey, hk] using ih h1

theorem mem_of_lookupKey_eq_some (l : Obj) (k : String) (v : Value)
    (h : lookupKey l k = some v) : (k, v) ∈ l := by
  induction l with
  | nil => simp [lookupKey] at h
  | cons q rest ih =>
      obtain ⟨k', v'⟩ := q
      by_cases hk : k' = k
      · subst hk
        simp [lookupKey] at h
        subst h
        exact List.mem_cons_self _ _
      · simp only [lookupKey, if_neg hk] at h
        exact List.mem_cons_of_mem _ (ih h)

/-! ### Classifier characterization lemmas -/

theorem filterConfigAux_append (render : Value → String) (xs ys : List (String × Value)) :
    ∀ acc, filterConfigAux render (xs ++ ys) acc =
      filterConfigAux render ys (filterConfigAux render xs acc) := by
  induction xs with
  | nil => intro acc; rfl
  | cons q rest ih => intro acc; simp [filterConfigAux, ih]

theorem mem_keysOf_filterConfigAux_fst (render : Value → String)
    (props : List (String × Value)) :
    ∀ (acc : Obj × Obj) (a : String),
    a ∈ keysOf (filterConfigAux render props acc).1 ↔
      a ∈ keysOf acc.1 ∨
        (a ∉ FUNCTION_PROPS ∧ a ∈ OPTIONS ∧ a ∈ normKeys props) := by
  induction props with
  | nil => intro acc a; simp [filterConfigAux, normKeys]
  | cons q rest ih =>
      intro acc a
      have hnk : normKeys (q :: rest) = normalizeKey q.1 :: normKeys rest := rfl
      rw [filterConfigAux, ih, hnk]
      by_cases hf : normalizeKey q.1 ∈ FUNCTION_PROPS
      · simp only [stepFC, if_pos hf, List.mem_cons]
        constructor
        · rintro (h | ⟨h1, h2, h3⟩)
          · exact Or.inl h
          · exact Or.inr ⟨h1, h2, Or.inr h3⟩
        · rintro (h | ⟨h1, h2, rfl | h3⟩)
          · exact Or.inl h
          · exact absurd hf h1
          · exact Or.inr ⟨h1, h2, h3⟩
      · by_cases ho : normalizeKey q.1 ∈ OPTIONS
        · simp only [stepFC, if_neg hf, if_pos ho, List.mem_cons,
            mem_keysOf_setKey]
          constructor
          · rintro ((rfl | h) | ⟨h1, h2, h3⟩)
            · exact Or.inr ⟨hf, ho, Or.inl rfl⟩
            · exact Or.inl h
            · exact Or.inr ⟨h1, h2, Or.inr h3⟩
          · rintro (h | ⟨h1, h2, rfl | h3⟩)
            · exact Or.inl (Or.inr h)
            · exact Or.inl (Or.inl rfl)
            · exact Or.inr ⟨h1, h2, h3⟩
        · simp only [stepFC, if_neg hf, if_neg ho, List.mem_cons]
          constructor
          · rintro (h | ⟨h1, h2, h3⟩)
            · exact Or.inl h
            · exact Or.inr ⟨h1, h2, Or.inr h3⟩
          · rintro (h | ⟨h1, h2, rfl | h3⟩)
            · exact Or.inl h
            · exact absurd h2 ho
            · exact Or.inr ⟨h1, h2, h3⟩

theorem mem_keysOf_filterConfigAux_snd (render : Value → String)
    (props : List (String × Value)) :
    ∀ (acc : Obj × Obj) (a : String),
    a ∈ keysOf (filterConfigAux render props acc).2 ↔
      a ∈ keysOf acc.2 ∨
        (a ∉ FUNCTION_PROPS ∧ a ∉ OPTIONS ∧ a ∈ normKeys props) := by
  induction props with
  | nil => intro acc a; simp [filterConfigAux, normKeys]
  | cons q rest ih =>
      intro acc a
      have hnk : normKeys (q :: rest) = normalizeKey q.1 :: normKeys rest := rfl
      rw [filterConfigAux, ih, hnk]
      by_cases hf : normalizeKey q.1 ∈ FUNCTION_PROPS
      · simp only [stepFC, if_pos hf, List.mem_cons]
        constructor
        · rintro (h | ⟨h1, h2, h3⟩)
          · exact Or.inl h
          · exact Or.inr ⟨h1, h2, Or.inr h3⟩
        · rintro (h | ⟨h1, h2, rfl | h3⟩)
          · exact Or.inl h
          · exact absurd hf h1
          · exact Or.inr ⟨h1, h2, h3⟩
      · by_cases ho : normalizeKey q.1 ∈ OPTIONS
        · simp only [stepFC, if_neg hf, if_pos ho, List.mem_cons]
          constructor
          · rintro (h | ⟨h1, h2, h3⟩)
            · exact Or.inl h
            · exact Or.inr ⟨h1, h2, Or.inr h3⟩
          · rintro (h | ⟨h1, h2, rfl | h3⟩)
            · exact Or.inl h
            · exact absurd ho h2
            · exact Or.inr ⟨h1, h2, h3⟩
        · simp only [stepFC, if_neg hf, if_neg ho, List.mem_cons,
            mem_keysOf_setKey]
          constructor
          · rintro ((rfl | h) | ⟨h1, h2, h3⟩)
            · exact Or.inr ⟨hf, ho, Or.inl rfl⟩
            · exact Or.inl h
            · exact Or.inr ⟨h1, h2, Or.inr h3⟩
          · rintro (h | ⟨h1, h2, rfl | h3⟩)
            · exact Or.inl (Or.inr h)
            · exact Or.inl (Or.inl rfl)
            · exact Or.inr ⟨h1, h2, h3⟩

theorem lookupKey_stepFC_snd (render : Value → String) (acc : Obj × Obj)
    (q : String × Value) (a : String) (h : normalizeKey q.1 ≠ a) :
    lookupKey (stepFC render acc q).2 a = lookupKey acc.2 a := by
  by_cases h1 : normalizeKey q.1 ∈ FUNCTION_PROPS
  · simp only [stepFC, if_pos h1]
  · by_cases h2 : normalizeKey q.1 ∈ OPTIONS
    · simp only [stepFC, if_neg h1, if_pos h2]
    · simp only [stepFC, if_neg h1, if_neg h2]
      exact lookupKey_setKey_ne _ _ _ _ h

theorem lookupKey_stepFC_fst (render : Value → String) (acc : Obj × Obj)
    (q : String × Value) (a : String) (h : normalizeKey q.1 ≠ a) :
    lookupKey (stepFC render acc q).1 a = lookupKey acc.1 a := by
  by_cases h1 : normalizeKey q.1 ∈ FUNCTION_PROPS
  · simp only [stepFC, if_pos h1]
  · by_cases h2 : normalizeKey q.1 ∈ OPTIONS
    · simp only [stepFC, if_neg h1, if_pos h2]
      exact lookupKey_setKey_ne _ _ _ _ h
    · simp only [stepFC, if_neg h1, if_neg h2]

theorem lookupKey_filterConfigAux_snd (render : Value → String)
    (props : List (String × Value)) :
    ∀ (acc : Obj × Obj) (a : String), (∀ p ∈ props, normalizeKey p.1 ≠ a) →
    lookupKey (filterConfigAux render props acc).2 a = lookupKey acc.2 a := by
  induction props with
  | nil => intro acc a _; rfl
  | cons q rest ih =>
      intro acc a h
      rw [filterConfigAux,
        ih _ a fun p hp => h p (List.mem_cons_of_mem _ hp),
        lookupKey_stepFC_snd render acc q a (h q (List.mem_cons_self _ _))]

theorem lookupKey_filterConfigAux_fst (render : Value → String)
    (props : List (String × Value)) :
    ∀ (acc : Obj × Obj) (a : String), (∀ p ∈ props, normalizeKey p.1 ≠ a) →
    lookupKey (filterConfigAux render props acc).1 a = lookupKey acc.1 a := by
  induction props with
  | nil => intro acc a _; rfl
  | cons q rest ih =>
      intro acc a h
      rw [filterConfigAux,
        ih _ a fun p hp => h p (List.mem_cons_of_mem _ hp),
        lookupKey_stepFC_fst render acc q a (h q (List.mem_cons_self _ _))]

/-! ### Event Bridge lemmas -/

theorem mem_handlerSelection (props : Obj) (a : String) :
    a ∈ handlerSelection props ↔
      ∃ p ∈ props, p.1 = a ∧ isFunc p.2 = true ∧
        normalizeKey p.1 ∈ FUNCTION_PROPS := by
  simp only [handlerSelection, List.mem_map, List.mem_filter,
    Bool.and_eq_true, decide_eq_true_eq]
  constructor
  · rintro ⟨p, ⟨hp, hfn, hfp⟩, rfl⟩
    exact ⟨p, hp, rfl, hfn, hfp⟩
  · rintro ⟨p, hp, rfl, hfn, hfp⟩
    exact ⟨p, ⟨hp, hfn, hfp⟩, rfl⟩

theorem normalizeKey_eq_self_of_mem_FP (k : String)
    (h : normalizeKey k ∈ FUNCTION_PROPS) : normalizeKey k = k := by
  by_cases h1 : k = "className"
  · subst h1
    exact absurd h (by decide)
  · by_cases h2 : k = "htmlFor"
    · subst h2
      exact absurd h (by decide)
    · simp [normalizeKey, h1, h2]

theorem snd_ge_of_mem_listenerEntriesAux (ks : List String) :
    ∀ (base : Nat) (p : String × Nat), p ∈ listenerEntriesAux ks base →
      base ≤ p.2 := by
  induction ks with
  | nil => intro base p h; simp [listenerEntriesAux] at h
  | cons k rest ih =>
      intro base p h
      rw [listenerEntriesAux] at h
      rcases List.mem_cons.mp h with h1 | h1
      · subst h1; exact Nat.le_refl _
      · exact Nat.le_of_succ_le (ih (base + 1) p h1)

theorem listenerEntriesAux_nodup (ks : List String) :
    ∀ base : Nat, (listenerEntriesAux ks base).Nodup := by
  induction ks with
  | nil => intro _; simp [listenerEntriesAux]
  | cons k rest ih =>
      intro base
      rw [listenerEntriesAux]
      refine List.nodup_cons.mpr ⟨fun hmem => ?_, ih (base + 1)⟩
      have := snd_ge_of_mem_listenerEntriesAux rest (base + 1) _ hmem
      simp at this

theorem attachAll_eq_append (fns : List (String × Nat)) :
    ∀ L : Listeners, (∀ p ∈ fns, p ∉ L) → fns.Nodup →
      attachAll L fns = L ++ fns := by
  induction fns with
  | nil => intro L _ _; simp [attachAll]
  | cons q rest ih =>
      intro L hL hnd
      have hq : q ∉ L := hL q (List.mem_cons_self _ _)
      have step : attachAll L (q :: rest) = attachAll (L ++ [q]) rest := by
        simp [attachAll, domAddListener, hq]
      rw [step, ih (L ++ [q]) ?_ (List.Nodup.of_cons hnd)]
      · simp
      · intro p hp
        have hpq : p ≠ q := by
          rintro rfl
          exact (List.nodup_cons.mp hnd).1 hp
        simp [hpq]
        exact hL p (List.mem_cons_of_mem _ hp)

theorem detachAll_append (fns : List (String × Nat)) :
    ∀ L : Listeners, (∀ p ∈ fns, p ∉ L) →
      detachAll (L ++ fns) fns = L := by
  induction fns with
  | nil => intro L _; simp [detachAll]
  | cons q rest ih =>
      intro L hL
      have hq : q ∉ L := hL q (List.mem_cons_self _ _)
      have step : detachAll (L ++ q :: rest) (q :: rest) =
          detachAll ((L ++ q :: rest).erase q) rest := by
        simp [detachAll, domRemoveListener]
      rw [step, List.erase_append_right _ hq, List.erase_cons_head]
      exact ih L fun p hp => hL p (List.mem_cons_of_mem _ hp)

/-! ### Option Updater lemmas -/

theorem isEqualConfig_iff (a b : Obj) : isEqualConfig a b = true ↔
    (∀ p ∈ a, lookupKey b p.1 = lookupKey a p.1) ∧
    (∀ p ∈ b, lookupKey a p.1 = lookupKey b p.1) := by
  simp [isEqualConfig, List.all_eq_true]

theorem isEqualConfig_refl (a : Obj) : isEqualConfig a a = true := by
  rw [isEqualConfig_iff]
  exact ⟨fun _ _ => rfl, fun _ _ => rfl⟩

theorem isEqualConfig_trans (a b c : Obj) (hab : isEqualConfig a b = true)
    (hbc : isEqualConfig b c = true) : isEqualConfig a c = true := by
  rw [isEqualConfig_iff] at hab hbc ⊢
  obtain ⟨hab1, hab2⟩ := hab
  obtain ⟨hbc1, hbc2⟩ := hbc
  have key : ∀ k : String, (∃ p, p ∈ a ∧ p.1 = k) ∨ (∃ p, p ∈ c ∧ p.1 = k) →
      lookupKey c k = lookupKey a k := by
    intro k hk
    have hbmid : lookupKey b k = lookupKey a k ∨ lookupKey b k = lookupKey c k := by
      rcases hk with ⟨p, hp, rfl⟩ | ⟨p, hp, rfl⟩
      · exact Or.inl (hab1 p hp)
      · exact Or.inr ((hbc2 p hp).symm ▸ rfl)
    rcases hm : lookupKey b k with _ | w
    · rcases hk with ⟨p, hp, rfl⟩ | ⟨p, hp, rfl⟩
      · obtain ⟨w, hw⟩ := lookupKey_isSome_of_mem a p hp
        have hcontr := hab1 p hp
        rw [hm, hw] at hcontr
        exact absurd hcontr (by simp)
      · obtain ⟨w, hw⟩ := lookupKey_isSome_of_mem c p hp
        have hcontr := hbc2 p hp
        rw [hm, hw] at hcontr
        exact absurd hcontr (by simp)
    · have hmemb := mem_of_lookupKey_eq_some b k w hm
      have h1 := hbc1 (k, w) hmemb
      have h2 := hab2 (k, w) hmemb
      simp only at h1 h2
      rw [h1]
      exact h2.symm
  constructor
  · intro p hp
    exact key p.1 (Or.inl ⟨p, hp, rfl⟩)
  · intro p hp
    exact (key p.1 (Or.inr ⟨p, hp, rfl⟩)).symm

/-! ## Claims -/

/-- Claim C1, counterexample: the partition union does not cover the bag's
keys as stated.  The bag `{onCommit: 0}` has a handler-named key with a
non-function value: `filterConfig` skips it (its renamed key is in
`FUNCTION_PROPS`) and `useEventRegistration` does not select it (its value
is not a function), so the key lands in none of the three partitions even
though it is among the bag's (renamed) keys. -/
theorem filterConfig_partition_counterexample :
    "onCommit" ∈ normKeys [(("onCommit" : String), Value.atom (Atom.prim 0))] ∧
    "onCommit" ∉ keysOf (filterConfig renderStub
      [("onCommit", Value.atom (Atom.prim 0))]).1 ∧
    "onCommit" ∉ keysOf (filterConfig renderStub
      [("onCommit", Value.atom (Atom.prim 0))]).2 ∧
    "onCommit" ∉ handlerSelection [("onCommit", Value.atom (Atom.prim 0))] := by
  decide

/-- Claim C1, amended: provided every property whose renamed key is in the
handler table holds a function value, the configuration keys, the
passthrough keys and the Event Bridge's selected handler keys together
equal the bag's keys after renaming, and the three partitions are pairwise
disjoint (the disjointness needs no proviso). -/
theorem filterConfig_partition (render : Value → String) (props : Obj)
    (a : String)
    (h : ∀ p ∈ props, normalizeKey p.1 ∈ FUNCTION_PROPS → isFunc p.2 = true) :
    ((a ∈ keysOf (filterConfig render props).1 ∨
      a ∈ keysOf (filterConfig render props).2 ∨
      a ∈ handlerSelection props) ↔ a ∈ normKeys props) ∧
    ¬(a ∈ keysOf (filterConfig render props).1 ∧
      a ∈ keysOf (filterConfig render props).2) ∧
    ¬(a ∈ keysOf (filterConfig render props).1 ∧
      a ∈ handlerSelection props) ∧
    ¬(a ∈ keysOf (filterConfig render props).2 ∧
      a ∈ handlerSelection props) := by
  have hcIff : a ∈ keysOf (filterConfig render props).1 ↔
      a ∉ FUNCTION_PROPS ∧ a ∈ OPTIONS ∧ a ∈ normKeys props := by
    rw [filterConfig, mem_keysOf_filterConfigAux_fst]
    simp [keysOf]
  have hpIff : a ∈ keysOf (filterConfig render props).2 ↔
      a ∉ FUNCTION_PROPS ∧ a ∉ OPTIONS ∧ a ∈ normKeys props := by
    rw [filterConfig, mem_keysOf_filterConfigAux_snd]
    simp [keysOf]
  have hhIff : a ∈ handlerSelection props ↔
      a ∈ FUNCTION_PROPS ∧ a ∈ normKeys props := by
    rw [mem_handlerSelection]
    constructor
    · rintro ⟨p, hp1, rfl, _, hp4⟩
      have heq := normalizeKey_eq_self_of_mem_FP p.1 hp4
      exact ⟨heq ▸ hp4, (mem_normKeys props p.1).mpr ⟨p, hp1, heq⟩⟩
    · rintro ⟨ha, hn⟩
      obtain ⟨p, hp1, hp2⟩ := (mem_normKeys props a).mp hn
      have hFP : normalizeKey p.1 ∈ FUNCTION_PROPS := hp2 ▸ ha
      have heq := normalizeKey_eq_self_of_mem_FP p.1 hFP
      exact ⟨p, hp1, heq ▸ hp2, h p hp1 hFP, hFP⟩
  refine ⟨?_, ?_, ?_, ?_⟩
  · constructor
    · rintro (hx | hx | hx)
      · exact (hcIff.mp hx).2.2
      · exact (hpIff.mp hx).2.2
      · exact (hhIff.mp hx).2
    · intro hn
      by_cases hFP : a ∈ FUNCTION_PROPS
      · exact Or.inr (Or.inr (hhIff.mpr ⟨hFP, hn⟩))
      · by_cases hOPT : a ∈ OPTIONS
        · exact Or.inl (hcIff.mpr ⟨hFP, hOPT, hn⟩)
        · exact Or.inr (Or.inl (hpIff.mpr ⟨hFP, hOPT, hn⟩))
  · rintro ⟨h1, h2⟩
    exact (hpIff.mp h2).2.1 (hcIff.mp h1).2.1
  · rintro ⟨h1, h2⟩
    exact (hcIff.mp h1).1 (hhIff.mp h2).1
  · rintro ⟨h1, h2⟩
    exact (hpIff.mp h1).1 (hhIff.mp h2).1

/-- Claim C1, witness: the amended partition statement evaluated on the
bag `{onCommit: fn, className: "x", locale: 1}` at the key `onCommit`. -/
theorem filterConfig_partition_witness :
    (("onCommit" ∈ keysOf (filterConfig renderStub
        [("onCommit", Value.atom (Atom.func 0)),
         ("className", Value.atom (Atom.str "x")),
         ("locale", Value.atom (Atom.prim 1))]).1 ∨
      "onCommit" ∈ keysOf (filterConfig renderStub
        [("onCommit", Value.atom (Atom.func 0)),
         ("className", Value.atom (Atom.str "x")),
         ("locale", Value.atom (Atom.prim 1))]).2 ∨
      "onCommit" ∈ handlerSelection
        [("onCommit", Value.atom (Atom.func 0)),
         ("className", Value.atom (Atom.str "x")),
         ("locale", Value.atom (Atom.prim 1))]) ↔
      "onCommit" ∈ normKeys
        [("onCommit", Value.atom (Atom.func 0)),
         ("className", Value.atom (Atom.str "x")),
         ("locale", Value.atom (Atom.prim 1))]) ∧
    ¬("onCommit" ∈ keysOf (filterConfig renderStub
        [("onCommit", Value.atom (Atom.func 0)),
         ("className", Value.atom (Atom.str "x")),
         ("locale", Value.atom (Atom.prim 1))]).1 ∧
      "onCommit" ∈ keysOf (filterConfig renderStub
        [("onCommit", Value.atom (Atom.func 0)),
         ("className", Value.atom (Atom.str "x")),
         ("locale", Value.atom (Atom.prim 1))]).2) ∧
    ¬("onCommit" ∈ keysOf (filterConfig renderStub
        [("onCommit", Value.atom (Atom.func 0)),
         ("className", Value.atom (Atom.str "x")),
         ("locale", Value.atom (Atom.prim 1))]).1 ∧
      "onCommit" ∈ handlerSelection
        [("onCommit", Value.atom (Atom.func 0)),
         ("className", Value.atom (Atom.str "x")),
         ("locale", Value.atom (Atom.prim 1))]) ∧
    ¬("onCommit" ∈ keysOf (filterConfig renderStub
        [("onCommit", Value.atom (Atom.func 0)),
         ("className", Value.atom (Atom.str "x")),
         ("locale", Value.atom (Atom.prim 1))]).2 ∧
      "onCommit" ∈ handlerSelection
        [("onCommit", Value.atom (Atom.func 0)),
         ("className", Value.atom (Atom.str "x")),
         ("locale", Value.atom (Atom.prim 1))]) :=
  filterConfig_partition renderStub
    [("onCommit", Value.atom (Atom.func 0)),
     ("className", Value.atom (Atom.str "x")),
     ("locale", Value.atom (Atom.prim 1))] "onCommit" (by decide)

/-- Claim C2, counterexample: with the stored previous configuration
initialized to the first-seen configuration, applying the structurally
different `{locale: 0}` then `{locale: 1}` invokes `setOptions` exactly
once (with the second configuration), not twice: the first effect run
compares the first configuration with itself and skips. -/
theorem useUpdateOptions_twice_counterexample :
    isEqualConfig [("locale", Value.atom (Atom.prim 0))]
      [("locale", Value.atom (Atom.prim 1))] = false ∧
    (runUpdateSeq true [("locale", Value.atom (Atom.prim 0))]
      [[("locale", Value.atom (Atom.prim 0))],
       [("locale", Value.atom (Atom.prim 1))]]).2 =
      [[("locale", Value.atom (Atom.prim 1))]] ∧
    (runUpdateSeq true [("locale", Value.atom (Atom.prim 0))]
      [[("locale", Value.atom (Atom.prim 0))],
       [("locale", Value.atom (Atom.prim 1))]]).2.length ≠ 2 := by
  decide

/-- Claim C2, amended: with the stored previous configuration initialized
to the first-seen configuration, applying two structurally different
configurations in sequence with the widget present invokes the setter
exactly once, with the second configuration: the first application is a
no-op because the stored configuration already equals it. -/
theorem useUpdateOptions_first_seen_once (c1 c2 : Obj)
    (h : isEqualConfig c1 c2 = false) :
    (runUpdateSeq true c1 [c1, c2]).2 = [c2] := by
  simp [runUpdateSeq, runUpdateOptions, isEqualConfig_refl c1, h]

/-- Claim C2, witness: the amended statement on `{locale: 0}` then
`{locale: 1}`. -/
theorem useUpdateOptions_first_seen_once_witness :
    (runUpdateSeq true [("locale", Value.atom (Atom.prim 0))]
      [[("locale", Value.atom (Atom.prim 0))],
       [("locale", Value.atom (Atom.prim 1))]]).2 =
      [[("locale", Value.atom (Atom.prim 1))]] :=
  useUpdateOptions_first_seen_once
    [("locale", Value.atom (Atom.prim 0))]
    [("locale", Value.atom (Atom.prim 1))] (by decide)

/-- Claim C3: applying two structurally equal configurations in sequence
(from any stored previous configuration, widget present or not), the
setter is invoked at most once over the two runs, and the second run is a
no-op: it makes no `setOptions` call and leaves the stored configuration
unchanged. -/
theorem useUpdateOptions_equal_noop (present : Bool) (p c1 c2 : Obj)
    (h : isEqualConfig c1 c2 = true) :
    (runUpdateOptions present (runUpdateOptions present p c1).1 c2).2 = [] ∧
    (runUpdateOptions present (runUpdateOptions present p c1).1 c2).1 =
      (runUpdateOptions present p c1).1 ∧
    ((runUpdateOptions present p c1).2 ++
      (runUpdateOptions present (runUpdateOptions present p c1).1 c2).2).length ≤ 1 := by
  have key : isEqualConfig (runUpdateOptions present p c1).1 c2 = true := by
    cases hp : isEqualConfig p c1 with
    | true =>
        rw [runUpdateOptions, if_pos hp]
        exact isEqualConfig_trans p c1 c2 hp h
    | false =>
        rw [runUpdateOptions, if_neg (by simp [hp])]
        exact h
  have h2 : runUpdateOptions present (runUpdateOptions present p c1).1 c2 =
      ((runUpdateOptions present p c1).1, []) := by
    rw [runUpdateOptions, if_pos key]
  refine ⟨by rw [h2], by rw [h2], ?_⟩
  rw [h2]
  cases hp : isEqualConfig p c1 with
  | true => simp [runUpdateOptions, hp]
  | false => cases present <;> simp [runUpdateOptions, hp]

/-- Claim C3, witness: two structurally equal configurations that are not
syntactically identical (the keys come in different orders), applied from
a distinct stored configuration with the widget present. -/
theorem useUpdateOptions_equal_noop_witness :
    (runUpdateOptions true (runUpdateOptions true []
      [("locale", Value.atom (Atom.prim 0)),
       ("smartMode", Value.atom (Atom.prim 1))]).1
      [("smartMode", Value.atom (Atom.prim 1)),
       ("locale", Value.atom (Atom.prim 0))]).2 = [] ∧
    (runUpdateOptions true (runUpdateOptions true []
      [("locale", Value.atom (Atom.prim 0)),
       ("smartMode", Value.atom (Atom.prim 1))]).1
      [("smartMode", Value.atom (Atom.prim 1)),
       ("locale", Value.atom (Atom.prim 0))]).1 =
      (runUpdateOptions true []
        [("locale", Value.atom (Atom.prim 0)),
         ("smartMode", Value.atom (Atom.prim 1))]).1 ∧
    ((runUpdateOptions true []
        [("locale", Value.atom (Atom.prim 0)),
         ("smartMode", Value.atom (Atom.prim 1))]).2 ++
      (runUpdateOptions true (runUpdateOptions true []
        [("locale", Value.atom (Atom.prim 0)),
         ("smartMode", Value.atom (Atom.prim 1))]).1
        [("smartMode", Value.atom (Atom.prim 1)),
         ("locale", Value.atom (Atom.prim 0))]).2).length ≤ 1 :=
  useUpdateOptions_equal_noop true []
    [("locale", Value.atom (Atom.prim 0)),
     ("smartMode", Value.atom (Atom.prim 1))]
    [("smartMode", Value.atom (Atom.prim 1)),
     ("locale", Value.atom (Atom.prim 0))] (by decide)

/-- Claim C4: every key of the configuration object produced by
`filterConfig` is a recognized option and is not in the handler table's
domain — in particular a key like `onCommit`, which is in both lists, is
never placed in the configuration because the handler check runs first. -/
theorem filterConfig_config_keys_recognized (render : Value → String)
    (props : Obj) (a : String)
    (h : a ∈ keysOf (filterConfig render props).1) :
    a ∈ OPTIONS ∧ a ∉ FUNCTION_PROPS := by
  rw [filterConfig, mem_keysOf_filterConfigAux_fst] at h
  simp [keysOf] at h
  exact ⟨h.2.1, h.1⟩

/-- Claim C4, witness: the bag `{onCommit: fn, locale: 0}` yields a
configuration whose key `locale` is a recognized non-handler option. -/
theorem filterConfig_config_keys_recognized_witness :
    "locale" ∈ OPTIONS ∧ "locale" ∉ FUNCTION_PROPS :=
  filterConfig_config_keys_recognized renderStub
    [("onCommit", Value.atom (Atom.func 0)),
     ("locale", Value.atom (Atom.prim 0))] "locale" (by decide)

/-- Claim C5: one effect run of `useEventRegistration` attaches the
computed forwarding listeners (fresh closures, so none of them is already
on the node) and its cleanup removes exactly those listeners: the node's
listener list returns to its prior state, none of the run's closures
remains registered, and on a node that started with no listeners,
dispatching any native event after the cleanup invokes no callback. -/
theorem useEventRegistration_cleanup (props : Obj) (L : Listeners)
    (base : Nat)
    (hfresh : ∀ p ∈ listenerEntries props base, p ∉ L) :
    detachAll (attachAll L (listenerEntries props base))
      (listenerEntries props base) = L ∧
    (∀ p ∈ listenerEntries props base,
      p ∉ detachAll (attachAll L (listenerEntries props base))
        (listenerEntries props base)) ∧
    (∀ e, dispatchList
      (detachAll (attachAll [] (listenerEntries props base))
        (listenerEntries props base)) e = []) := by
  have hnd : (listenerEntries props base).Nodup :=
    listenerEntriesAux_nodup (handlerSelection props) base
  have h1 : attachAll L (listenerEntries props base) =
      L ++ listenerEntries props base :=
    attachAll_eq_append _ L hfresh hnd
  have h2 : detachAll (L ++ listenerEntries props base)
      (listenerEntries props base) = L :=
    detachAll_append _ L hfresh
  have hmain : detachAll (attachAll L (listenerEntries props base))
      (listenerEntries props base) = L := by rw [h1]; exact h2
  refine ⟨hmain, ?_, ?_⟩
  · intro p hp
    rw [hmain]
    exact hfresh p hp
  · intro e
    have e1 : attachAll [] (listenerEntries props base) =
        [] ++ listenerEntries props base :=
      attachAll_eq_append _ [] (by simp) hnd
    have e2 : detachAll ([] ++ listenerEntries props base)
        (listenerEntries props base) = ([] : Listeners) :=
      detachAll_append _ [] (by simp)
    rw [e1, e2]
    rfl

/-- Claim C5, witness: a bag with two handler props (`onCommit`,
`onChange`) and an option prop, attached to a node carrying one unrelated
listener, evaluated with fresh closure identities starting at 0. -/
theorem useEventRegistration_cleanup_witness :
    detachAll (attachAll [("input", 99)]
      (listenerEntries [("onCommit", Value.atom (Atom.func 0)),
        ("onChange", Value.atom (Atom.func 1)),
        ("locale", Value.atom (Atom.prim 2))] 0))
      (listenerEntries [("onCommit", Value.atom (Atom.func 0)),
        ("onChange", Value.atom (Atom.func 1)),
        ("locale", Value.atom (Atom.prim 2))] 0) = [("input", 99)] ∧
    (∀ p ∈ listenerEntries [("onCommit", Value.atom (Atom.func 0)),
        ("onChange", Value.atom (Atom.func 1)),
        ("locale", Value.atom (Atom.prim 2))] 0,
      p ∉ detachAll (attachAll [("input", 99)]
        (listenerEntries [("onCommit", Value.atom (Atom.func 0)),
          ("onChange", Value.atom (Atom.func 1)),
          ("locale", Value.atom (Atom.prim 2))] 0))
        (listenerEntries [("onCommit", Value.atom (Atom.func 0)),
          ("onChange", Value.atom (Atom.func 1)),
          ("locale", Value.atom (Atom.prim 2))] 0)) ∧
    (∀ e, dispatchList
      (detachAll (attachAll []
        (listenerEntries [("onCommit", Value.atom (Atom.func 0)),
          ("onChange", Value.atom (Atom.func 1)),
          ("locale", Value.atom (Atom.prim 2))] 0))
        (listenerEntries [("onCommit", Value.atom (Atom.func 0)),
          ("onChange", Value.atom (Atom.func 1)),
          ("locale", Value.atom (Atom.prim 2))] 0)) e = []) :=
  useEventRegistration_cleanup
    [("onCommit", Value.atom (Atom.func 0)),
     ("onChange", Value.atom (Atom.func 1)),
     ("locale", Value.atom (Atom.prim 2))] [("input", 99)] 0 (by decide)

/-- Claim C6, counterexample: `filterConfig` stores a passthrough property
under its renamed key, not under the original key.  For the bag
`{className: "foo"}`, whose renamed key `class` is neither a handler nor a
recognized option, the passthrough bag is `{class: "foo"}`: the original
pair `("className", "foo")` is not in it. -/
theorem filterConfig_passthrough_counterexample :
    normalizeKey "className" ∉ FUNCTION_PROPS ∧
    normalizeKey "className" ∉ OPTIONS ∧
    ("className", Value.atom (Atom.str "foo")) ∉
      (filterConfig renderStub
        [("className", Value.atom (Atom.str "foo"))]).2 ∧
    (filterConfig renderStub
      [("className", Value.atom (Atom.str "foo"))]).2 =
      [("class", Value.atom (Atom.str "foo"))] := by
  decide

/-- Claim C6, amended: a property whose renamed key is neither in the
handler table nor a recognized option is stored in the passthrough bag
under its renamed key with its value, provided no later property of the
bag renames to the same key (last writer wins). -/
theorem filterConfig_passthrough_normalized (render : Value → String)
    (l1 l2 : Obj) (k : String) (v : Value)
    (hf : normalizeKey k ∉ FUNCTION_PROPS)
    (ho : normalizeKey k ∉ OPTIONS)
    (hlater : ∀ p ∈ l2, normalizeKey p.1 ≠ normalizeKey k) :
    lookupKey (filterConfig render (l1 ++ (k, v) :: l2)).2 (normalizeKey k) =
      some v := by
  rw [filterConfig, filterConfigAux_append, filterConfigAux,
    lookupKey_filterConfigAux_snd render l2 _ _ hlater]
  simp only [stepFC, if_neg hf, if_neg ho]
  exact lookupKey_setKey_self _ _ _

/-- Claim C6, witness: the bag `{className: "foo", smartMode: 1}` stores
`("class", "foo")` in the passthrough bag. -/
theorem filterConfig_passthrough_normalized_witness :
    lookupKey (filterConfig renderStub
      ([] ++ ("className", Value.atom (Atom.str "foo")) ::
        [("smartMode", Value.atom (Atom.prim 1))])).2
      (normalizeKey "className") = some (Value.atom (Atom.str "foo")) :=
  filterConfig_passthrough_normalized renderStub []
    [("smartMode", Value.atom (Atom.prim 1))] "className"
    (Value.atom (Atom.str "foo")) (by decide) (by decide) (by decide)

/-- Claim C7, counterexample: on an element whose own `value` descriptor
setter (identity 1) is present and distinct from the prototype's setter
(identity 2), the dispatch invokes the prototype setter, not the own
setter the claim names — the source's branch is the inverse of the
claim's. -/
theorem dispatchSynthetic_selection_counterexample :
    dispatchSynthetic (some ⟨some 1, 2⟩) "change" "x" =
      Except.ok (some ⟨2, "x", ⟨"change", true, true, "x"⟩⟩) ∧
    specSelectedSetter ⟨some 1, 2⟩ = 1 ∧ (2 : Nat) ≠ 1 :=
  ⟨rfl, rfl, by decide⟩

/-- Claim C7, amended: on a bound element with an own `value` setter, the
dispatch invokes the prototype setter when the own setter is present and
distinct from it, and the own setter otherwise; the invoked setter
receives the new value, after which a custom event of the given type is
dispatched that bubbles, is cancelable and carries the detail value.  On
an unbound ref the dispatch is a silent no-op. -/
theorem dispatchSynthetic_behavior (h : InputElement) (etype value : String)
    (vs : Nat) (hvs : h.ownSetter = some vs) :
    dispatchSynthetic (some h) etype value =
      Except.ok (some
        { setterUsed := if vs ≠ h.protoSetter then h.protoSetter else vs
          setterArg := value
          event := { etype := etype, bubbles := true, cancelable := true,
                     detailValue := value } }) ∧
    dispatchSynthetic none etype value = Except.ok none := by
  constructor
  · simp [dispatchSynthetic, hvs]
  · rfl

/-- Claim C7, witness: the amended dispatch behaviour on the element with
own setter 1 and prototype setter 2. -/
theorem dispatchSynthetic_behavior_witness :
    dispatchSynthetic (some (⟨some 1, 2⟩ : InputElement)) "change" "x" =
      Except.ok (some
        { setterUsed := if 1 ≠ (⟨some 1, 2⟩ : InputElement).protoSetter
            then (⟨some 1, 2⟩ : InputElement).protoSetter else 1
          setterArg := "x"
          event := { etype := "change", bubbles := true, cancelable := true,
                     detailValue := "x" } }) ∧
    dispatchSynthetic none "change" "x" = Except.ok none :=
  dispatchSynthetic_behavior ⟨some 1, 2⟩ "change" "x" 1 rfl

/-- Claim C8: the claim demands an idempotent, non-throwing teardown, and
the source's teardown (`document.body.removeChild(container)`) is neither:
run when the node is still attached it removes the node, but run when the
node is already gone it throws `NotFoundError` — the failing input the
claim's requirement exposes. -/
theorem useAddChildCleanup_throws_when_gone :
    useAddChildCleanup (bodyAppendChild [] 0) 0 = Except.ok [] ∧
    useAddChildCleanup [] 0 = Except.error "NotFoundError" :=
  ⟨rfl, rfl⟩

/-- Claim C9: a run of `useUpdateOptions` with the widget absent and a
configuration structurally different from the stored one makes no
`setOptions` call yet replaces the stored configuration; a later run with
the widget present and a structurally equal configuration then makes no
call either, so that configuration is never pushed to the widget. -/
theorem useUpdateOptions_absent_ref_swallows (p c c' : Obj)
    (h1 : isEqualConfig p c = false) (h2 : isEqualConfig c c' = true) :
    runUpdateOptions false p c = (c, []) ∧
    runUpdateOptions true c c' = (c, []) := by
  constructor
  · simp [runUpdateOptions, h1]
  · simp [runUpdateOptions, h2]

/-- Claim C9, witness: from stored `{}` with the widget absent, apply
`{locale: 0}`; then with the widget present apply the structurally equal
`{locale: 0}`. -/
theorem useUpdateOptions_absent_ref_swallows_witness :
    runUpdateOptions false [] [("locale", Value.atom (Atom.prim 0))] =
      ([("locale", Value.atom (Atom.prim 0))], []) ∧
    runUpdateOptions true [("locale", Value.atom (Atom.prim 0))]
      [("locale", Value.atom (Atom.prim 0))] =
      ([("locale", Value.atom (Atom.prim 0))], []) :=
  useUpdateOptions_absent_ref_swallows []
    [("locale", Value.atom (Atom.prim 0))]
    [("locale", Value.atom (Atom.prim 0))] (by decide) (by decide)

/-- Claim C10: a recognized option key holding the empty array passes the
renderable-markup test (the `every` homogeneity check holds vacuously on
`[]`), so the configuration receives the rendered string form of the empty
array rather than the empty array itself — stated for a bag in which no
later property renames to the same key. -/
theorem filterConfig_empty_array_rendered (render : Value → String)
    (l1 l2 : Obj) (k : String)
    (hf : normalizeKey k ∉ FUNCTION_PROPS)
    (ho : normalizeKey k ∈ OPTIONS)
    (hlater : ∀ p ∈ l2, normalizeKey p.1 ≠ normalizeKey k) :
    isRenderableValue (Value.arr []) = true ∧
    lookupKey (filterConfig render (l1 ++ (k, Value.arr []) :: l2)).1
      (normalizeKey k) = some (Value.atom (Atom.str (render (Value.arr [])))) := by
  refine ⟨rfl, ?_⟩
  rw [filterConfig, filterConfigAux_append, filterConfigAux,
    lookupKey_filterConfigAux_fst render l2 _ _ hlater]
  simp only [stepFC, if_neg hf, if_pos ho]
  exact lookupKey_setKey_self _ _ _

/-- Claim C10, witness: the bag `{keybindings: []}` produces a
configuration binding `keybindings` to the rendered string of `[]`. -/
theorem filterConfig_empty_array_rendered_witness :
    isRenderableValue (Value.arr []) = true ∧
    lookupKey (filterConfig renderStub
      ([] ++ ("keybindings", Value.arr []) :: [])).1
      (normalizeKey "keybindings") =
      some (Value.atom (Atom.str (renderStub (Value.arr [])))) :=
  filterConfig_empty_array_rendered renderStub [] [] "keybindings"
    (by decide) (by decide) (by decide)

end ReactMathlive
